import Mathlib

set_option autoImplicit false
set_option maxHeartbeats 1000000

/-! A shallow embedding of the CIS Workbench scraper (scraper.py).
The embedding covers the text extractor (Scraper.__parse_text), the
navigation-tree flattener (Scraper.__extract_subsections and
Scraper.__parse_navtree), the detail fetcher (Scraper.__fetch_control),
the concurrent aggregation loop and the serializer (Scraper.main).
Network effects are modelled by passing the fetch outcome as a
function; the completion order of the thread pool is modelled as an
arbitrary permutation of the submitted work list. -/

/-! Text extractor, scraper.py lines 57-61. -/

/-- Whitespace removed by Python str.strip, modelled over the ASCII
whitespace characters. -/
def isPySpace (c : Char) : Bool :=
  c == (' ') || c == ('\t') || c == ('\n') || c == ('\r') || c == ('\x0b') || c == ('\x0c')

/-- Python str.strip on the underlying character list: drop whitespace
from the front, then from the back. -/
def pyStrip (l : List Char) : List Char :=
  ((l.dropWhile isPySpace).reverse.dropWhile isPySpace).reverse

/-- Lines 57-61, Scraper.__parse_text: strip the text; an empty (falsy)
stripped result returns the empty string, otherwise the stripped text
is returned. -/
def parse_text (s : String) : String :=
  let t := String.mk (pyStrip s.toList)
  if t = ("") then ("") else t

/-! Failure model.  requests errors raised by Session.get are one kind;
the AttributeError raised by taking .text of the None returned by
soup.find on a missing element is the other. -/

/-- Exceptions a fetch can raise. -/
inductive PyError where
  | attributeError : PyError
  | requestError : String → PyError
deriving DecidableEq, Repr

/-- Lines 84-91, the per-field expression soup.find(...).text fed to
__parse_text.  A parsed detail page is modelled as a lookup from
element id to the element's raw text when the element is present;
taking .text of a missing element raises AttributeError. -/
def findParsed (soup : String → Option String) (elemId : String) : Except PyError String :=
  match soup elemId with
  | none => Except.error PyError.attributeError
  | some t => Except.ok (parse_text t)

/-! Navigation tree and flattener, scraper.py lines 63-76 and 94-101. -/

/-- The dict appended to navtree_list at lines 71-76. -/
structure LeafItem where
  id : String
  title : String
  key : String
  url : String
deriving DecidableEq, Repr

/-- A navigation-tree node: id, title, view_level, section_id, and the
two optional children keys subsections_for_nav_tree and
recommendations_for_nav_tree.  Option models presence of the dict key
(a present key may hold an empty list). -/
inductive NavNode : Type where
  | mk : String → String → String → String →
      Option (List NavNode) → Option (List NavNode) → NavNode

def NavNode.nid : NavNode → String
  | NavNode.mk i _ _ _ _ _ => i

def NavNode.ntitle : NavNode → String
  | NavNode.mk _ t _ _ _ _ => t

def NavNode.viewLevel : NavNode → String
  | NavNode.mk _ _ vl _ _ _ => vl

def NavNode.sectionId : NavNode → String
  | NavNode.mk _ _ _ sid _ _ => sid

def NavNode.subsections : NavNode → Option (List NavNode)
  | NavNode.mk _ _ _ _ s _ => s

def NavNode.recommendations : NavNode → Option (List NavNode)
  | NavNode.mk _ _ _ _ _ r => r

/-- Membership test for the subsections_for_nav_tree key. -/
def NavNode.hasSubsKey (n : NavNode) : Bool := n.subsections.isSome

/-- Membership test for the recommendations_for_nav_tree key. -/
def NavNode.hasRecsKey (n : NavNode) : Bool := n.recommendations.isSome

/-- Python truthiness of a string: nonempty strings are truthy. -/
def pyStrTruthy (s : String) : Bool := !(s == (""))

/-- The condition of line 70, exactly as Python evaluates it: x and y
yields y when x is truthy and x otherwise, and the left operand here is
the nonempty string literal, so only the right operand (the membership
test of the subsections key) is ever the value of the conjunction. -/
def line70Guard (subsection : NavNode) : Bool :=
  !(if pyStrTruthy ("recommendations_for_nav_tree")
    then subsection.hasSubsKey
    else pyStrTruthy ("recommendations_for_nav_tree"))

/-- Lines 71-76: the LeafItem built from a node's fields. -/
def mkItem (i t vl sid : String) : LeafItem :=
  { id := i
    title := t
    key := vl ++ (" ") ++ t
    url := ("https://workbench.cisecurity.org/sections/") ++ sid ++ ("/recommendations/") ++ i }

mutual
/-- Lines 63-76, Scraper.__extract_subsections: recurse into the
subsections children when that key is present, then into the
recommendations children when that key is present, then append the
node's own item when the line-70 condition holds.  The returned list is
the sequence of items this call appends to navtree_list, in order. -/
def extractNode : NavNode → List LeafItem
  | NavNode.mk i t vl sid subs recs =>
    (match subs with
     | some l => extractList l
     | none => []) ++
    (match recs with
     | some l => extractList l
     | none => []) ++
    (if line70Guard (NavNode.mk i t vl sid subs recs) then [mkItem i t vl sid] else [])

/-- The for-loops of lines 65-66 and 68-69, applied to a list of child
nodes in order. -/
def extractList : List NavNode → List LeafItem
  | [] => []
  | n :: ns => extractNode n ++ extractList ns
end

/-- Lines 94-101, Scraper.__parse_navtree: flatten every top-level item
of the navigation tree in order. -/
def parse_navtree (navigation_tree : List NavNode) : List LeafItem :=
  extractList navigation_tree

mutual
/-- Claim-side flattener, following the claim's words: recurse into
subsections then recommendations, and append an item for the node
itself exactly when the node lacks the subsections key, after all of
its children. -/
def flattenC10 : NavNode → List LeafItem
  | NavNode.mk i t vl sid subs recs =>
    (match subs with
     | some l => flattenC10List l
     | none => []) ++
    (match recs with
     | some l => flattenC10List l
     | none => []) ++
    (if (NavNode.mk i t vl sid subs recs).hasSubsKey then [] else [mkItem i t vl sid])

/-- Child lists for flattenC10, in order. -/
def flattenC10List : List NavNode → List LeafItem
  | [] => []
  | n :: ns => flattenC10 n ++ flattenC10List ns
end

mutual
/-- Modelled from the spec: the depth-first leaf sequence the spec's
flattening-completeness property describes.  A leaf is a node with
neither a subsections key nor a recommendations key; descent is
depth-first, subsections before recommendations, and only leaves are
emitted. -/
def dfLeafItems : NavNode → List LeafItem
  | NavNode.mk i t vl sid subs recs =>
    if subs.isNone && recs.isNone then [mkItem i t vl sid]
    else
      (match subs with
       | some l => dfLeafItemsList l
       | none => []) ++
      (match recs with
       | some l => dfLeafItemsList l
       | none => [])

/-- Child lists for dfLeafItems, in order. -/
def dfLeafItemsList : List NavNode → List LeafItem
  | [] => []
  | n :: ns => dfLeafItems n ++ dfLeafItemsList ns
end

/-- Occurrence of a node m somewhere in the tree rooted at another
node. -/
inductive Subnode : NavNode → NavNode → Prop where
  | refl (n : NavNode) : Subnode n n
  | viaSubs {d m : NavNode} {i t vl sid : String} {l : List NavNode}
      {recs : Option (List NavNode)} (hm : m ∈ l) (hd : Subnode d m) :
      Subnode d (NavNode.mk i t vl sid (some l) recs)
  | viaRecs {d m : NavNode} {i t vl sid : String} {subs : Option (List NavNode)}
      {l : List NavNode} (hm : m ∈ l) (hd : Subnode d m) :
      Subnode d (NavNode.mk i t vl sid subs (some l))

/-! Detail fetcher, scraper.py lines 78-92. -/

/-- The record built at lines 80-92, field order as in the dict
literal. -/
structure ControlRecord where
  id : String
  key : String
  title : String
  assessment_status : String
  description : String
  rationale : String
  impact : String
  audit : String
  remediation : String
  default_value : String
  references : String
deriving DecidableEq, Repr

/-- Python dict value order of the record built at lines 80-92. -/
def ControlRecord.values (r : ControlRecord) : List String :=
  [r.id, r.key, r.title, r.assessment_status, r.description, r.rationale,
   r.impact, r.audit, r.remediation, r.default_value, r.references]

/-- The eight detail-page element ids looked up at lines 84-91, in
evaluation order. -/
def locators : List String :=
  [("automated_scoring-recomendtation-data"),
   ("description-recomendtation-data"),
   ("rationale_statement-recomendtation-data"),
   ("impact_statement-recomendtation-data"),
   ("audit_procedure-recomendtation-data"),
   ("remediation_procedure-recomendtation-data"),
   ("default_value-recomendtation-data"),
   ("references-recomendtation-data")]

/-- Lines 78-92, Scraper.__fetch_control: GET the control's url, parse
the page, and extract the eight fixed fields in dict-literal order; the
first raised exception aborts the record. -/
def fetch_control (get : String → Except PyError (String → Option String))
    (control : LeafItem) : Except PyError ControlRecord := do
  let soup ← get control.url
  let assessment ← findParsed soup ("automated_scoring-recomendtation-data")
  let descriptionText ← findParsed soup ("description-recomendtation-data")
  let rationaleText ← findParsed soup ("rationale_statement-recomendtation-data")
  let impactText ← findParsed soup ("impact_statement-recomendtation-data")
  let auditText ← findParsed soup ("audit_procedure-recomendtation-data")
  let remediationText ← findParsed soup ("remediation_procedure-recomendtation-data")
  let defaultValueText ← findParsed soup ("default_value-recomendtation-data")
  let referencesText ← findParsed soup ("references-recomendtation-data")
  return { id := control.id
           key := control.key
           title := control.title
           assessment_status := assessment
           description := descriptionText
           rationale := rationaleText
           impact := impactText
           audit := auditText
           remediation := remediationText
           default_value := defaultValueText
           references := referencesText }

/-! Concurrent aggregation and serialization, scraper.py lines 103-126. -/

/-- Console output of the aggregation loop: the progress line of line
112 and the error line of line 114. -/
inductive Emitted where
  | progress (completed total : Nat) : Emitted
  | errorMsg (id : String) : Emitted
deriving DecidableEq, Repr

/-- The completed counts carried by the progress lines of a log, in
order. -/
def progressCounts (log : List Emitted) : List Nat :=
  log.filterMap fun e =>
    match e with
    | Emitted.progress k _ => some k
    | Emitted.errorMsg _ => none

/-- Python dict assignment controls[id] = data: an existing key keeps
its position and gets the new value, a fresh key is appended. -/
def dictInsert (m : List (String × ControlRecord)) (k : String) (v : ControlRecord) :
    List (String × ControlRecord) :=
  if k ∈ m.map Prod.fst then
    m.map fun p => if p.1 = k then (k, v) else p
  else m ++ [(k, v)]

/-- Whether the fetch of an item succeeds. -/
def fetchOk (fetch : LeafItem → Except PyError ControlRecord) (c : LeafItem) : Bool :=
  match fetch c with
  | Except.ok _ => true
  | Except.error _ => false

/-- Lines 107-115, the as_completed loop of Scraper.main: the items are
consumed in completion order; a successful result is inserted into the
controls dict under the item's id and a progress line is printed; the
first failure prints an error line naming the item's id and exits the
process with status 1.  Returns the emitted console lines and either
the final controls dict or the failing item's id with the raised
error. -/
def aggLoop (fetch : LeafItem → Except PyError ControlRecord) (total : Nat) :
    List LeafItem → Nat → List (String × ControlRecord) → List Emitted →
    List Emitted × Except (String × PyError) (List (String × ControlRecord))
  | [], _, controls, log => (log, Except.ok controls)
  | c :: rest, idx, controls, log =>
    match fetch c with
    | Except.ok data =>
        aggLoop fetch total rest (idx + 1) (dictInsert controls c.id data)
          (log ++ [Emitted.progress (idx + 1) total])
    | Except.error e => (log ++ [Emitted.errorMsg c.id], Except.error (c.id, e))

/-- Line 34, the __BENCHMARK_DATA dict: total starts as None and is
assigned at line 116 only after the loop finishes. -/
structure BenchmarkData where
  title : String
  controls : List (String × ControlRecord)
  total : Option Nat

/-- The two output formats accepted by the command line. -/
inductive Format where
  | json : Format
  | csv : Format
deriving DecidableEq, Repr

/-- Line 124, the csv header row. -/
def fieldNames : List String :=
  [("id"), ("key"), ("title"), ("assessment_status"), ("description"), ("rationale"),
   ("impact"), ("audit"), ("remediation"), ("default_value"), ("references")]

/-- Lines 122-126: the rows written by the csv writer, the header first
and then one row per control in dict order, values in dict-literal
order. -/
def serializeCsv (data : BenchmarkData) : List (List String) :=
  fieldNames :: data.controls.map fun p => p.2.values

/-- Contents of the output file: line 121 dumps the whole benchmark
dict, lines 122-126 write csv rows. -/
inductive FileContents where
  | jsonDoc (data : BenchmarkData) : FileContents
  | csvRows (rows : List (List String)) : FileContents

/-- Lines 119-126, format dispatch. -/
def writeOutput : Format → BenchmarkData → FileContents
  | Format.json, d => FileContents.jsonDoc d
  | Format.csv, d => FileContents.csvRows (serializeCsv d)

/-- Outcome of a run: either the loop finished, total was assigned and
the output file was written, or the process exited with a status code
at the first failed fetch, before any file was opened. -/
inductive RunResult where
  | completed (data : BenchmarkData) (file : FileContents) : RunResult
  | aborted (failedId : String) (err : PyError) (exitCode : Nat) : RunResult

/-- The output file a run wrote, if any. -/
def writtenFile : RunResult → Option FileContents
  | RunResult.completed _ f => some f
  | RunResult.aborted _ _ _ => none

/-- Lines 103-126, Scraper.main after the navtree parse: drain the
completions in completion order, then assign total and write one file,
or abort with exit status 1 on the first failure. -/
def scraperMain (fetch : LeafItem → Except PyError ControlRecord) (title : String)
    (items completionOrder : List LeafItem) (fmt : Format) :
    List Emitted × RunResult :=
  let r := aggLoop fetch items.length completionOrder 0 [] []
  match r.2 with
  | Except.error (cid, e) => (r.1, RunResult.aborted cid e 1)
  | Except.ok controls =>
      (r.1, RunResult.completed
        { title := title, controls := controls, total := some controls.length }
        (writeOutput fmt { title := title, controls := controls, total := some controls.length }))

/-! Concrete data used by counterexamples and witnesses. -/

/-- A bare recommendation leaf: neither children key present. -/
def exLeafB : NavNode := NavNode.mk ("B") ("Rec") ("1.1") ("9") none none

/-- A section node holding one recommendation child but lacking the
subsections key. -/
def exNodeA : NavNode := NavNode.mk ("A") ("Sec") ("1") ("9") none (some [exLeafB])

/-- A bare leaf with the view_level and title of the spec's key
construction example. -/
def exLeafEnsure : NavNode := NavNode.mk ("X1") ("Ensure X") ("1.1") ("7") none none

/-- A first work item. -/
def exItem1 : LeafItem := mkItem ("A") ("T1") ("1.1") ("9")

/-- A second work item with a distinct id. -/
def exItem2 : LeafItem := mkItem ("B") ("T2") ("1.2") ("9")

/-- The record a successful fetch of an item yields in the witnesses. -/
def exRecord (c : LeafItem) : ControlRecord :=
  { id := c.id
    key := c.key
    title := c.title
    assessment_status := ("Automated")
    description := ("d")
    rationale := ("r")
    impact := ("i")
    audit := ("a")
    remediation := ("rm")
    default_value := ("dv")
    references := ("rf") }

/-- A fetch in which every item succeeds. -/
def okFetch (c : LeafItem) : Except PyError ControlRecord := Except.ok (exRecord c)

/-- A fetch in which every item raises a requests error. -/
def badFetch (_c : LeafItem) : Except PyError ControlRecord :=
  Except.error (PyError.requestError ("boom"))

/-- A GET whose response parses to a page with every element missing. -/
def getMissing (_url : String) : Except PyError (String → Option String) :=
  Except.ok fun _ => none

/-- A benchmark result holding two controls. -/
def exData2 : BenchmarkData :=
  { title := ("T")
    controls := [(("A"), exRecord exItem1), (("B"), exRecord exItem2)]
    total := some 2 }

/-! Lemmas about the text extractor. -/

theorem dropWhile_dropWhile (p : Char → Bool) (l : List Char) :
    (l.dropWhile p).dropWhile p = l.dropWhile p := by
  induction l with
  | nil => rfl
  | cons a l ih =>
    cases h : p a with
    | true => simp [List.dropWhile_cons, h, ih]
    | false => simp [List.dropWhile_cons, h]

theorem head_false_of_dropWhile_self (p : Char → Bool) (a : Char) (l : List Char)
    (h : (a :: l).dropWhile p = a :: l) : p a = false := by
  cases hpa : p a with
  | false => rfl
  | true =>
    exfalso
    rw [List.dropWhile_cons, if_pos hpa] at h
    have hle : (l.dropWhile p).length ≤ l.length := (List.dropWhile_sublist p).length_le
    rw [h] at hle
    simp at hle

theorem dropWhile_append_last (p : Char → Bool) (a : Char) (h : p a = false)
    (l : List Char) : (l ++ [a]).dropWhile p = l.dropWhile p ++ [a] := by
  induction l with
  | nil => simp [List.dropWhile_cons, h]
  | cons b l ih =>
    cases hb : p b with
    | true => simp [List.dropWhile_cons, hb, ih]
    | false => simp [List.dropWhile_cons, hb]

theorem lstrip_of_rstrip_of_lstripped (p : Char → Bool) (l : List Char)
    (h : l.dropWhile p = l) :
    ((l.reverse.dropWhile p).reverse).dropWhile p = (l.reverse.dropWhile p).reverse := by
  cases l with
  | nil => simp
  | cons a l =>
    have ha : p a = false := head_false_of_dropWhile_self p a l h
    have hrev : (a :: l).reverse = l.reverse ++ [a] := by simp
    rw [hrev, dropWhile_append_last p a ha l.reverse]
    rw [List.reverse_append]
    simp only [List.reverse_cons, List.reverse_nil, List.nil_append, List.singleton_append]
    rw [List.dropWhile_cons, if_neg (by simp [ha])]

theorem pyStrip_idem (l : List Char) : pyStrip (pyStrip l) = pyStrip l := by
  unfold pyStrip
  have hL : (l.dropWhile isPySpace).dropWhile isPySpace = l.dropWhile isPySpace :=
    dropWhile_dropWhile isPySpace l
  have h1 := lstrip_of_rstrip_of_lstripped isPySpace (l.dropWhile isPySpace) hL
  rw [h1]
  rw [List.reverse_reverse]
  rw [dropWhile_dropWhile]

theorem pyStrip_nil_iff (l : List Char) :
    pyStrip l = [] ↔ ∀ c ∈ l, isPySpace c = true := by
  constructor
  · intro h c hc
    unfold pyStrip at h
    have h2 : (l.dropWhile isPySpace).reverse.dropWhile isPySpace = [] := by
      have := congrArg List.reverse h
      simpa using this
    have hall : ∀ c ∈ (l.dropWhile isPySpace).reverse, isPySpace c = true :=
      List.dropWhile_eq_nil_iff.mp h2
    have hallL : ∀ c ∈ l.dropWhile isPySpace, isPySpace c = true := by
      intro c hc
      exact hall c (by simpa using hc)
    have hsplit := List.takeWhile_append_dropWhile isPySpace l
    rw [← hsplit] at hc
    rcases List.mem_append.mp hc with h3 | h3
    · exact List.mem_takeWhile_imp h3
    · exact hallL c h3
  · intro h
    have h1 : l.dropWhile isPySpace = [] := List.dropWhile_eq_nil_iff.mpr h
    unfold pyStrip
    rw [h1]
    rfl

theorem parse_text_eq (s : String) : parse_text s = String.mk (pyStrip s.toList) := by
  show (if String.mk (pyStrip s.toList) = ("") then ("") else String.mk (pyStrip s.toList))
      = String.mk (pyStrip s.toList)
  split
  · next h => exact h.symm
  · rfl

theorem parse_text_toList (s : String) : (parse_text s).toList = pyStrip s.toList := by
  rw [parse_text_eq]
  rfl

theorem parse_text_idem (s : String) : parse_text (parse_text s) = parse_text s := by
  rw [parse_text_eq (parse_text s), parse_text_toList, pyStrip_idem, parse_text_eq]

theorem parse_text_empty_iff (s : String) :
    parse_text s = ("") ↔ ∀ c ∈ s.toList, isPySpace c = true := by
  rw [parse_text_eq]
  rw [show ("" : String) = String.mk [] from rfl]
  rw [String.ext_iff]
  exact pyStrip_nil_iff s.toList

theorem parse_text_of_stripped (s : String) (h : pyStrip s.toList = s.toList) :
    parse_text s = s := by
  rw [parse_text_eq, h]
  cases s
  rfl

/-! Lemmas about the flattener. -/

theorem mem_extractList (item : LeafItem) (l : List NavNode) :
    item ∈ extractList l ↔ ∃ p ∈ l, item ∈ extractNode p := by
  induction l with
  | nil => simp [extractList]
  | cons n ns ih =>
    simp only [extractList, List.mem_append, ih, List.mem_cons]
    constructor
    · rintro (h | ⟨p, hp, h⟩)
      · exact ⟨n, Or.inl rfl, h⟩
      · exact ⟨p, Or.inr hp, h⟩
    · rintro ⟨p, rfl | hp, h⟩
      · exact Or.inl h
      · exact Or.inr ⟨p, hp, h⟩

theorem sizeOf_lt_of_mem_subs (i t vl sid : String) (l : List NavNode)
    (recs : Option (List NavNode)) (p : NavNode) (hp : p ∈ l) :
    sizeOf p < sizeOf (NavNode.mk i t vl sid (some l) recs) := by
  have h1 : sizeOf p < sizeOf l := List.sizeOf_lt_of_mem hp
  simp [NavNode.mk.sizeOf_spec]
  omega

theorem sizeOf_lt_of_mem_recs (i t vl sid : String) (subs : Option (List NavNode))
    (l : List NavNode) (p : NavNode) (hp : p ∈ l) :
    sizeOf p < sizeOf (NavNode.mk i t vl sid subs (some l)) := by
  have h1 : sizeOf p < sizeOf l := List.sizeOf_lt_of_mem hp
  simp [NavNode.mk.sizeOf_spec]
  omega

theorem line70Guard_eq (n : NavNode) : line70Guard n = !(n.hasSubsKey) := by
  have h : pyStrTruthy ("recommendations_for_nav_tree") = true := rfl
  simp [line70Guard, h]

/-- Every item the flattener emits comes from a node of the tree, and
is exactly the LeafItem built from that node's fields. -/
theorem extract_mem_shape : ∀ (k : Nat) (n : NavNode), sizeOf n < k →
    ∀ item ∈ extractNode n,
      ∃ m : NavNode, Subnode m n ∧ item = mkItem m.nid m.ntitle m.viewLevel m.sectionId := by
  intro k
  induction k with
  | zero => intro n h; exact absurd h (Nat.not_lt_zero _)
  | succ k ih =>
    intro n hn item hitem
    cases n with
    | mk i t vl sid subs recs =>
      simp only [extractNode.eq_def] at hitem
      rcases List.mem_append.mp hitem with hleft | hself
      · rcases List.mem_append.mp hleft with hsub | hrec
        · cases subs with
          | none => simp at hsub
          | some l =>
            obtain ⟨p, hp, hmem⟩ := (mem_extractList item l).mp hsub
            have hsz : sizeOf p < sizeOf (NavNode.mk i t vl sid (some l) recs) :=
              sizeOf_lt_of_mem_subs i t vl sid l recs p hp
            obtain ⟨m, hsubn, heq⟩ := ih p (by omega) item hmem
            exact ⟨m, Subnode.viaSubs hp hsubn, heq⟩
        · cases recs with
          | none => simp at hrec
          | some l =>
            obtain ⟨p, hp, hmem⟩ := (mem_extractList item l).mp hrec
            have hsz : sizeOf p < sizeOf (NavNode.mk i t vl sid subs (some l)) :=
              sizeOf_lt_of_mem_recs i t vl sid subs l p hp
            obtain ⟨m, hsubn, heq⟩ := ih p (by omega) item hmem
            exact ⟨m, Subnode.viaRecs hp hsubn, heq⟩
      · rcases hif : line70Guard (NavNode.mk i t vl sid subs recs) with hfalse | htrue
        · rw [hif] at hself; simp at hself
        · rw [hif] at hself
          simp at hself
          exact ⟨NavNode.mk i t vl sid subs recs, Subnode.refl _, by rw [hself]; rfl⟩

theorem extractList_congr_fl (l : List NavNode)
    (h : ∀ p ∈ l, extractNode p = flattenC10 p) : extractList l = flattenC10List l := by
  induction l with
  | nil => rfl
  | cons n ns ih =>
    rw [extractList, flattenC10List, h n (by simp), ih fun p hp => h p (by simp [hp])]

theorem extract_eq_flattenC10_aux : ∀ (k : Nat) (n : NavNode), sizeOf n < k →
    extractNode n = flattenC10 n := by
  intro k
  induction k with
  | zero => intro n h; exact absurd h (Nat.not_lt_zero _)
  | succ k ih =>
    intro n hn
    cases n with
    | mk i t vl sid subs recs =>
      cases subs with
      | none =>
        cases recs with
        | none =>
          simp [extractNode.eq_def, flattenC10.eq_def, line70Guard_eq,
            NavNode.hasSubsKey, NavNode.subsections]
        | some lr =>
          have hr : extractList lr = flattenC10List lr :=
            extractList_congr_fl lr fun p hp => ih p (by
              have := sizeOf_lt_of_mem_recs i t vl sid none lr p hp
              omega)
          simp [extractNode.eq_def, flattenC10.eq_def, line70Guard_eq,
            NavNode.hasSubsKey, NavNode.subsections, hr]
      | some ls =>
        have hs : extractList ls = flattenC10List ls :=
          extractList_congr_fl ls fun p hp => ih p (by
            have := sizeOf_lt_of_mem_subs i t vl sid ls recs p hp
            omega)
        cases recs with
        | none =>
          simp [extractNode.eq_def, flattenC10.eq_def, line70Guard_eq,
            NavNode.hasSubsKey, NavNode.subsections, hs]
        | some lr =>
          have hr : extractList lr = flattenC10List lr :=
            extractList_congr_fl lr fun p hp => ih p (by
              have := sizeOf_lt_of_mem_recs i t vl sid (some ls) lr p hp
              omega)
          simp [extractNode.eq_def, flattenC10.eq_def, line70Guard_eq,
            NavNode.hasSubsKey, NavNode.subsections, hs, hr]

/-! Lemmas about the aggregation loop. -/

theorem dictInsert_fresh (m : List (String × ControlRecord)) (k : String) (v : ControlRecord)
    (h : k ∉ m.map Prod.fst) : dictInsert m k v = m ++ [(k, v)] := by
  simp [dictInsert, h]

theorem agg_error_of_exists (fetch : LeafItem → Except PyError ControlRecord) (T : Nat) :
    ∀ (order : List LeafItem) (idx : Nat) (controls : List (String × ControlRecord))
      (log : List Emitted),
      (∃ c ∈ order, ∃ e, fetch c = Except.error e) →
      ∃ p, (aggLoop fetch T order idx controls log).2 = Except.error p := by
  intro order
  induction order with
  | nil =>
    rintro _ _ _ ⟨c, hc, _⟩
    exact absurd hc (List.not_mem_nil c)
  | cons c rest ih =>
    rintro idx controls log ⟨d, hd, e, he⟩
    cases hf : fetch c with
    | error e2 => exact ⟨(c.id, e2), by simp [aggLoop, hf]⟩
    | ok data =>
      rcases List.mem_cons.mp hd with rfl | hd2
      · rw [hf] at he; cases he
      · have := ih (idx + 1) (dictInsert controls c.id data)
          (log ++ [Emitted.progress (idx + 1) T]) ⟨d, hd2, e, he⟩
        simpa [aggLoop, hf] using this

theorem agg_ok_all (fetch : LeafItem → Except PyError ControlRecord)
    (rec : LeafItem → ControlRecord) (T : Nat) :
    ∀ (order : List LeafItem) (idx : Nat) (controls : List (String × ControlRecord))
      (log : List Emitted),
      (∀ c ∈ order, fetch c = Except.ok (rec c)) →
      (∀ c ∈ order, c.id ∉ controls.map Prod.fst) →
      (order.map fun c => c.id).Nodup →
      (aggLoop fetch T order idx controls log).2 =
        Except.ok (controls ++ order.map fun c => (c.id, rec c)) := by
  intro order
  induction order with
  | nil => intro idx controls log _ _ _; simp [aggLoop]
  | cons c rest ih =>
    intro idx controls log hok hfresh hnodup
    have hfc : fetch c = Except.ok (rec c) := hok c (by simp)
    have hcid : c.id ∉ controls.map Prod.fst := hfresh c (by simp)
    rw [List.map_cons, List.nodup_cons] at hnodup
    have hfresh2 : ∀ d ∈ rest, d.id ∉ (controls ++ [(c.id, rec c)]).map Prod.fst := by
      intro d hd
      rw [List.map_append, List.mem_append]
      push_neg
      refine ⟨hfresh d (by simp [hd]), ?_⟩
      simp only [List.map_cons, List.map_nil, List.mem_singleton]
      intro hdc
      exact hnodup.1 (by rw [← hdc]; exact List.mem_map_of_mem _ hd)
    have hrec := ih (idx + 1) (controls ++ [(c.id, rec c)])
      (log ++ [Emitted.progress (idx + 1) T])
      (fun d hd => hok d (by simp [hd])) hfresh2 hnodup.2
    simp only [aggLoop, hfc]
    rw [dictInsert_fresh controls c.id (rec c) hcid]
    rw [hrec]
    simp

theorem agg_log_append (fetch : LeafItem → Except PyError ControlRecord) (T : Nat) :
    ∀ (order : List LeafItem) (idx : Nat) (controls : List (String × ControlRecord))
      (log : List Emitted),
      (aggLoop fetch T order idx controls log).1 =
        log ++ (aggLoop fetch T order idx controls []).1 := by
  intro order
  induction order with
  | nil => intro idx controls log; simp [aggLoop]
  | cons c rest ih =>
    intro idx controls log
    cases hf : fetch c with
    | ok data =>
      simp only [aggLoop, hf, List.nil_append]
      rw [ih (idx + 1) (dictInsert controls c.id data) (log ++ [Emitted.progress (idx + 1) T])]
      rw [ih (idx + 1) (dictInsert controls c.id data) [Emitted.progress (idx + 1) T]]
      simp
    | error e =>
      simp only [aggLoop, hf, List.nil_append]

theorem agg_counts (fetch : LeafItem → Except PyError ControlRecord) (T : Nat) :
    ∀ (order : List LeafItem) (idx : Nat) (controls : List (String × ControlRecord)),
      progressCounts ((aggLoop fetch T order idx controls []).1) =
        List.range' (idx + 1) (order.takeWhile fun c => fetchOk fetch c).length := by
  intro order
  induction order with
  | nil => intro idx controls; simp [aggLoop, progressCounts, List.range']
  | cons c rest ih =>
    intro idx controls
    cases hf : fetch c with
    | ok data =>
      have hTW : ((c :: rest).takeWhile fun c => fetchOk fetch c) =
          c :: (rest.takeWhile fun c => fetchOk fetch c) := by
        rw [List.takeWhile_cons]
        simp [fetchOk, hf]
      simp only [aggLoop, hf, List.nil_append]
      rw [agg_log_append fetch T rest (idx + 1) (dictInsert controls c.id data)
        [Emitted.progress (idx + 1) T]]
      rw [hTW, List.length_cons]
      rw [show List.range' (idx + 1) ((rest.takeWhile fun c => fetchOk fetch c).length + 1) =
          (idx + 1) :: List.range' (idx + 1 + 1)
            (rest.takeWhile fun c => fetchOk fetch c).length from rfl]
      have hpc : progressCounts ([Emitted.progress (idx + 1) T] ++
          (aggLoop fetch T rest (idx + 1) (dictInsert controls c.id data) []).1) =
          (idx + 1) :: progressCounts ((aggLoop fetch T rest (idx + 1)
            (dictInsert controls c.id data) []).1) := by
        simp [progressCounts]
      rw [hpc, ih (idx + 1) (dictInsert controls c.id data)]
    | error e =>
      have hTW : ((c :: rest).takeWhile fun c => fetchOk fetch c) = [] := by
        rw [List.takeWhile_cons]
        simp [fetchOk, hf]
      simp only [aggLoop, hf, List.nil_append]
      rw [hTW]
      simp [progressCounts, List.range']

theorem chain_lt_range' : ∀ (n s : Nat),
    List.Chain' (fun a b => a < b) (List.range' s n) := by
  intro n
  induction n with
  | zero => intro s; simp [List.range']
  | succ m ih =>
    intro s
    cases m with
    | zero => simp [List.range']
    | succ m2 =>
      rw [show List.range' s (m2 + 2) = s :: List.range' (s + 1) (m2 + 1) from rfl]
      rw [show List.range' (s + 1) (m2 + 1) = (s + 1) :: List.range' (s + 1 + 1) m2 from rfl]
      exact List.Chain'.cons (Nat.lt_succ_self s) (by
        rw [show (s + 1) :: List.range' (s + 1 + 1) m2 = List.range' (s + 1) (m2 + 1) from rfl]
        exact ih (s + 1))

/-! Lemmas about the detail fetcher. -/

theorem fetch_control_err_net (get : String → Except PyError (String → Option String))
    (c : LeafItem) (e : PyError) (h : get c.url = Except.error e) :
    fetch_control get c = Except.error e := by
  simp [fetch_control, h, bind, Except.bind, Except.instMonad, Functor.map, Except.map]

theorem fetch_control_ok_soup (get : String → Except PyError (String → Option String))
    (c : LeafItem) (r : ControlRecord) (h : fetch_control get c = Except.ok r) :
    ∃ soup, get c.url = Except.ok soup ∧ ∀ loc ∈ locators, (soup loc).isSome = true := by
  cases hget : get c.url with
  | error e => rw [fetch_control_err_net get c e hget] at h; cases h
  | ok soup =>
    refine ⟨soup, rfl, ?_⟩
    intro loc hmem
    simp only [locators, List.mem_cons, List.not_mem_nil, or_false] at hmem
    cases h1 : soup ("automated_scoring-recomendtation-data") with
    | none => simp [fetch_control, hget, findParsed, h1, bind, Except.bind, Except.instMonad, Functor.map, Except.map] at h
    | some t1 =>
    cases h2 : soup ("description-recomendtation-data") with
    | none => simp [fetch_control, hget, findParsed, h1, h2, bind, Except.bind, Except.instMonad, Functor.map, Except.map] at h
    | some t2 =>
    cases h3 : soup ("rationale_statement-recomendtation-data") with
    | none => simp [fetch_control, hget, findParsed, h1, h2, h3, bind, Except.bind, Except.instMonad, Functor.map, Except.map] at h
    | some t3 =>
    cases h4 : soup ("impact_statement-recomendtation-data") with
    | none => simp [fetch_control, hget, findParsed, h1, h2, h3, h4, bind, Except.bind, Except.instMonad, Functor.map, Except.map] at h
    | some t4 =>
    cases h5 : soup ("audit_procedure-recomendtation-data") with
    | none => simp [fetch_control, hget, findParsed, h1, h2, h3, h4, h5, bind, Except.bind, Except.instMonad, Functor.map, Except.map] at h
    | some t5 =>
    cases h6 : soup ("remediation_procedure-recomendtation-data") with
    | none => simp [fetch_control, hget, findParsed, h1, h2, h3, h4, h5, h6, bind, Except.bind, Except.instMonad, Functor.map, Except.map] at h
    | some t6 =>
    cases h7 : soup ("default_value-recomendtation-data") with
    | none => simp [fetch_control, hget, findParsed, h1, h2, h3, h4, h5, h6, h7, bind, Except.bind, Except.instMonad, Functor.map, Except.map] at h
    | some t7 =>
    cases h8 : soup ("references-recomendtation-data") with
    | none => simp [fetch_control, hget, findParsed, h1, h2, h3, h4, h5, h6, h7, h8, bind, Except.bind, Except.instMonad, Functor.map, Except.map] at h
    | some t8 =>
    rcases hmem with rfl | rfl | rfl | rfl | rfl | rfl | rfl | rfl <;>
      simp [h1, h2, h3, h4, h5, h6, h7, h8]

/-! Claim theorems. -/

/-- C1: the claim says the flattener's output contains exactly the
leaf nodes (nodes with neither subsections nor recommendations) in
depth-first order and that no internal node ever appears.  The code
violates this: on a node that has recommendations children but lacks
the subsections key, the flattener emits the internal node itself after
its children, so its output differs from the spec's depth-first leaf
sequence. -/
theorem c1_internal_node_in_output :
    extractNode exNodeA =
      [mkItem ("B") ("Rec") ("1.1") ("9"), mkItem ("A") ("Sec") ("1") ("9")] ∧
    dfLeafItems exNodeA = [mkItem ("B") ("Rec") ("1.1") ("9")] ∧
    NavNode.hasRecsKey exNodeA = true ∧
    extractNode exNodeA ≠ dfLeafItems exNodeA := by
  decide

/-- C2: if any dispatched fetch fails, the run aborts with exit status
1 and no output file is written, no matter how many other fetches
succeeded. -/
theorem c2_fail_fast (fetch : LeafItem → Except PyError ControlRecord) (title : String)
    (items order : List LeafItem) (fmt : Format)
    (hperm : order.Perm items)
    (hfail : ∃ c ∈ items, ∃ e, fetch c = Except.error e) :
    ∃ cid e, (scraperMain fetch title items order fmt).2 = RunResult.aborted cid e 1 ∧
      writtenFile (scraperMain fetch title items order fmt).2 = none := by
  have hfail2 : ∃ c ∈ order, ∃ e, fetch c = Except.error e := by
    obtain ⟨c, hc, e, he⟩ := hfail
    exact ⟨c, hperm.mem_iff.mpr hc, e, he⟩
  obtain ⟨p, hp⟩ := agg_error_of_exists fetch items.length order 0 [] [] hfail2
  obtain ⟨cid, e⟩ := p
  refine ⟨cid, e, ?_, ?_⟩
  · simp [scraperMain, hp]
  · simp [scraperMain, hp, writtenFile]

/-- Witness for C2: a run over one item whose fetch raises aborts with
exit status 1 and writes nothing. -/
theorem c2_fail_fast_witness :
    ∃ cid e, (scraperMain badFetch ("T") [exItem1] [exItem1] Format.json).2 =
        RunResult.aborted cid e 1 ∧
      writtenFile (scraperMain badFetch ("T") [exItem1] [exItem1] Format.json).2 = none :=
  c2_fail_fast badFetch ("T") [exItem1] [exItem1] Format.json (List.Perm.refl _)
    ⟨exItem1, by simp, PyError.requestError ("boom"), rfl⟩

/-- C3: for items with pairwise-distinct ids whose fetches all succeed,
the run completes, the controls map has one entry per item keyed by the
item's id, and total is assigned, after the loop, to the number of
entries of the controls map. -/
theorem c3_aggregation_uniqueness (fetch : LeafItem → Except PyError ControlRecord)
    (rec : LeafItem → ControlRecord) (title : String) (items order : List LeafItem)
    (fmt : Format) (hperm : order.Perm items)
    (hnodup : (items.map fun c => c.id).Nodup)
    (hok : ∀ c ∈ items, fetch c = Except.ok (rec c)) :
    ∃ data file, (scraperMain fetch title items order fmt).2 = RunResult.completed data file ∧
      data.controls.length = items.length ∧
      data.controls.map Prod.fst = order.map (fun c => c.id) ∧
      (data.controls.map Prod.fst).Perm (items.map fun c => c.id) ∧
      data.total = some data.controls.length := by
  have hok2 : ∀ c ∈ order, fetch c = Except.ok (rec c) := fun c hc => hok c (hperm.mem_iff.mp hc)
  have hnodup2 : (order.map fun c => c.id).Nodup := (hperm.map fun c => c.id).nodup_iff.mpr hnodup
  have hagg := agg_ok_all fetch rec items.length order 0 [] [] hok2 (by simp) hnodup2
  rw [List.nil_append] at hagg
  refine ⟨BenchmarkData.mk title (order.map fun c => (c.id, rec c))
      (some (order.map fun c => (c.id, rec c)).length),
    writeOutput fmt (BenchmarkData.mk title (order.map fun c => (c.id, rec c))
      (some (order.map fun c => (c.id, rec c)).length)), ?_, ?_, ?_, ?_, rfl⟩
  · simp [scraperMain, hagg]
  · simp [hperm.length_eq]
  · simp
  · simp only [List.map_map]
    rw [show (Prod.fst ∘ fun c : LeafItem => (c.id, rec c)) = fun c : LeafItem => c.id from rfl]
    exact hperm.map fun c => c.id

/-- Witness for C3: a successful two-item run yields two entries keyed
by the two ids and total equal to the map size. -/
theorem c3_aggregation_uniqueness_witness :
    ∃ data file,
      (scraperMain okFetch ("T") [exItem1, exItem2] [exItem1, exItem2] Format.csv).2 =
        RunResult.completed data file ∧
      data.controls.length = ([exItem1, exItem2] : List LeafItem).length ∧
      data.controls.map Prod.fst = [exItem1, exItem2].map (fun c => c.id) ∧
      (data.controls.map Prod.fst).Perm ([exItem1, exItem2].map fun c => c.id) ∧
      data.total = some data.controls.length :=
  c3_aggregation_uniqueness okFetch exRecord ("T") [exItem1, exItem2] [exItem1, exItem2]
    Format.csv (List.Perm.refl _) (by decide) (fun c _ => rfl)

/-- C4: when the fetch of an item raises a network error or the detail
page lacks one of the eight expected elements, the detail fetcher
yields an exception rather than a record, and the aggregation loop
surfaces that single failure together with the item's id. -/
theorem c4_fetch_failure (get : String → Except PyError (String → Option String)) (c : LeafItem)
    (h : (∃ e, get c.url = Except.error e) ∨
      (∃ soup, get c.url = Except.ok soup ∧ ∃ loc ∈ locators, soup loc = none)) :
    ∃ e, fetch_control get c = Except.error e ∧
      ∀ (rest : List LeafItem) (T idx : Nat) (controls : List (String × ControlRecord))
        (log : List Emitted),
        aggLoop (fetch_control get) T (c :: rest) idx controls log =
          (log ++ [Emitted.errorMsg c.id], Except.error (c.id, e)) := by
  have herr : ∃ e, fetch_control get c = Except.error e := by
    cases hfc : fetch_control get c with
    | error e => exact ⟨e, rfl⟩
    | ok r =>
      exfalso
      obtain ⟨soup, hget, hall⟩ := fetch_control_ok_soup get c r hfc
      rcases h with ⟨e, hne⟩ | ⟨soup2, hok2, loc, hmem, hnone⟩
      · rw [hget] at hne; cases hne
      · rw [hget] at hok2
        have hss : soup = soup2 := by injection hok2
        have hsome := hall loc hmem
        rw [hss, hnone] at hsome
        cases hsome
  obtain ⟨e, he⟩ := herr
  refine ⟨e, he, fun rest T idx controls log => ?_⟩
  simp only [aggLoop, he]

/-- Witness for C4: a page with every element missing makes the fetch
raise, and the loop reports the failing item's id with the error. -/
theorem c4_fetch_failure_witness :
    ∃ e, fetch_control getMissing exItem1 = Except.error e ∧
      ∀ (rest : List LeafItem) (T idx : Nat) (controls : List (String × ControlRecord))
        (log : List Emitted),
        aggLoop (fetch_control getMissing) T (exItem1 :: rest) idx controls log =
          (log ++ [Emitted.errorMsg exItem1.id], Except.error (exItem1.id, e)) :=
  c4_fetch_failure getMissing exItem1
    (Or.inr ⟨fun _ => none, rfl, ("automated_scoring-recomendtation-data"), by decide, rfl⟩)

/-- Counterexample to C5: on an absent element the extractor raises
AttributeError instead of returning the empty string. -/
theorem c5_absent_element_cex :
    findParsed (fun _ => none) ("description-recomendtation-data") =
      Except.error PyError.attributeError ∧
    findParsed (fun _ => none) ("description-recomendtation-data") ≠ Except.ok ("") := by
  refine ⟨rfl, ?_⟩
  intro h
  exact Except.noConfusion h

/-- C5 as amended: for a present element the extractor returns the
trimmed text, which is empty exactly when the text is whitespace-only;
for an absent element it raises AttributeError rather than returning
the empty string. -/
theorem c5_text_extractor_amended :
    (∀ (soup : String → Option String) (elemId t : String), soup elemId = some t →
      findParsed soup elemId = Except.ok (parse_text t) ∧
        (parse_text t = ("") ↔ ∀ c ∈ t.toList, isPySpace c = true)) ∧
    (∀ (soup : String → Option String) (elemId : String), soup elemId = none →
      findParsed soup elemId = Except.error PyError.attributeError) := by
  constructor
  · intro soup elemId t h
    exact ⟨by simp [findParsed, h], parse_text_empty_iff t⟩
  · intro soup elemId h
    simp [findParsed, h]

/-- Witness for C5 as amended: a present element's text is trimmed. -/
theorem c5_text_extractor_witness :
    findParsed (fun _ => some ("  x  ")) ("d") = Except.ok (parse_text ("  x  ")) ∧
      (parse_text ("  x  ") = ("") ↔ ∀ c ∈ ("  x  ").toList, isPySpace c = true) :=
  c5_text_extractor_amended.1 (fun _ => some ("  x  ")) ("d") ("  x  ") rfl

/-- C6: tabular serialization emits the eleven-name header row first,
then one row per control in dict order with values in the fixed field
order, so a result with 2 controls yields 3 rows of 11 fields each. -/
theorem c6_tabular_serialization (data : BenchmarkData) :
    serializeCsv data =
      [("id"), ("key"), ("title"), ("assessment_status"), ("description"), ("rationale"),
       ("impact"), ("audit"), ("remediation"), ("default_value"), ("references")] ::
        (data.controls.map fun p => p.2.values) ∧
    (∀ row ∈ serializeCsv data, row.length = 11) ∧
    (data.controls.length = 2 → (serializeCsv data).length = 3) := by
  refine ⟨rfl, ?_, ?_⟩
  · intro row hrow
    rcases List.mem_cons.mp hrow with rfl | hrow2
    · rfl
    · obtain ⟨p, hp, rfl⟩ := List.mem_map.mp hrow2
      rfl
  · intro h2
    simp [serializeCsv, h2]

/-- Witness for C6: the two-control example serializes to 3 rows and
the header has 11 fields. -/
theorem c6_tabular_serialization_witness :
    (serializeCsv exData2).length = 3 ∧ fieldNames.length = 11 :=
  ⟨(c6_tabular_serialization exData2).2.2 (by rfl),
   (c6_tabular_serialization exData2).2.1 fieldNames (by simp [serializeCsv])⟩

/-- Counterexample to C7: a failed completion emits the error line, not
a progress indicator, so the progress log of a one-item failing run is
empty even though one completion was processed. -/
theorem c7_progress_cex :
    (aggLoop badFetch 1 [exItem1] 0 [] []).1 = [Emitted.errorMsg ("A")] ∧
    progressCounts ((aggLoop badFetch 1 [exItem1] 0 [] []).1) = [] := by
  decide

/-- C7 as amended: a progress indicator is emitted after each
successful completion, the emitted completed counts are exactly
1, 2, ... up to the number of successes before the first failure, and
they are strictly increasing; a failed completion emits an error line
instead and ends the run. -/
theorem c7_progress_amended (fetch : LeafItem → Except PyError ControlRecord) (T : Nat)
    (order : List LeafItem) :
    progressCounts ((aggLoop fetch T order 0 [] []).1) =
      List.range' 1 (order.takeWhile fun c => fetchOk fetch c).length ∧
    List.Chain' (fun a b => a < b) (progressCounts ((aggLoop fetch T order 0 [] []).1)) := by
  have h := agg_counts fetch T order 0 []
  constructor
  · exact h
  · rw [h]
    exact chain_lt_range' _ 1

/-- C8: the text normalizer returns already-trimmed text unchanged,
collapses whitespace-only text to the empty string, and is
idempotent. -/
theorem c8_parse_text_idempotent :
    (∀ s : String, pyStrip s.toList = s.toList → parse_text s = s) ∧
    (∀ s : String, (∀ c ∈ s.toList, isPySpace c = true) → parse_text s = ("")) ∧
    (∀ s : String, parse_text (parse_text s) = parse_text s) :=
  ⟨fun s h => parse_text_of_stripped s h,
   fun s h => (parse_text_empty_iff s).mpr h,
   fun s => parse_text_idem s⟩

/-- Witness for C8: a trimmed string is unchanged and a whitespace-only
string collapses to empty. -/
theorem c8_parse_text_idempotent_witness :
    parse_text ("abc") = ("abc") ∧ parse_text ("   ") = ("") :=
  ⟨c8_parse_text_idempotent.1 ("abc") (by decide),
   c8_parse_text_idempotent.2.1 ("   ") (by decide)⟩

/-- C9: every item the flattener emits is built from a node of the
tree, with key equal to that node's view_level, one space, and the
node's title. -/
theorem c9_key_construction (n : NavNode) (item : LeafItem) (h : item ∈ extractNode n) :
    ∃ m : NavNode, Subnode m n ∧ item.id = m.nid ∧ item.title = m.ntitle ∧
      item.key = m.viewLevel ++ (" ") ++ m.ntitle := by
  obtain ⟨m, hm, heq⟩ := extract_mem_shape (sizeOf n + 1) n (Nat.lt_succ_self _) item h
  exact ⟨m, hm, by rw [heq]; rfl, by rw [heq]; rfl, by rw [heq]; rfl⟩

/-- Witness for C9: a leaf with view_level 1.1 and title Ensure X
produces the key 1.1 Ensure X. -/
theorem c9_key_construction_witness :
    (∃ m : NavNode, Subnode m exLeafEnsure ∧
      (mkItem ("X1") ("Ensure X") ("1.1") ("7")).id = m.nid ∧
      (mkItem ("X1") ("Ensure X") ("1.1") ("7")).title = m.ntitle ∧
      (mkItem ("X1") ("Ensure X") ("1.1") ("7")).key = m.viewLevel ++ (" ") ++ m.ntitle) ∧
    (mkItem ("X1") ("Ensure X") ("1.1") ("7")).key = ("1.1 Ensure X") :=
  ⟨c9_key_construction exLeafEnsure (mkItem ("X1") ("Ensure X") ("1.1") ("7")) (by decide),
   by decide⟩

/-- C10: the line-70 guard evaluates its truthy string literal first
and so tests only membership of the subsections key; the flattener
coincides with the flattener that appends a node exactly when it lacks
the subsections key, and a node with recommendations children but no
subsections key is recursed into and then itself appended after all of
its children. -/
theorem c10_guard_tests_subsections_only :
    (∀ n : NavNode, extractNode n = flattenC10 n) ∧
    (∀ (i t vl sid : String) (recs : List NavNode),
      extractNode (NavNode.mk i t vl sid none (some recs)) =
        extractList recs ++ [mkItem i t vl sid]) := by
  constructor
  · intro n
    exact extract_eq_flattenC10_aux (sizeOf n + 1) n (Nat.lt_succ_self _)
  · intro i t vl sid recs
    simp [extractNode.eq_def, line70Guard_eq, NavNode.hasSubsKey, NavNode.subsections]
